import Mathlib

/-!
# The `generateQart` bridge (`main_qart.go`)

A shallow embedding of `genqart`, the function that `main` registers in the
JavaScript global scope, together with the parts of its environment that it
observes: the `syscall/js` value accessors, `encoding/base64`'s standard
encoding, and the `Image` engine (`SetFile`, `Encode`), whose declaration lives
outside `main_qart.go` and is therefore a parameter of the development.

The accessors of `syscall/js` follow their documentation for the Go releases
that can build the file (it uses `js.FuncOf`, `js.CopyBytesToGo` and a
`//go:build` line): `Value.Get`, `Value.Int`, `Value.Bool` and `Value.Length`
panic on a value of the wrong JavaScript type; `Value.String` and
`Value.Truthy` accept every type that `Value.Type` can classify and panic in
`Value.Type` ("bad type flag") on the one it cannot, a BigInt. A Go panic is
modelled by `none`: the call produces no return value.
-/

namespace QArt

/-! ## Bytes and `encoding/base64` (`base64.StdEncoding`) -/

/-- A Go `byte`. -/
abbrev Byte := Fin 256

/-- The alphabet of `base64.StdEncoding` (`encodeStd` in `encoding/base64`). -/
def encodeStd : List Char :=
  "ABCDEFGHIJKLMNOPQRSTUVWXYZabcdefghijklmnopqrstuvwxyz0123456789+/".toList

/-- The padding character of `base64.StdEncoding` (`StdPadding`). -/
def padChar : Char := '='

/-- The character `enc.encode[i]` for a six-bit value `i`. -/
def encChar (i : Nat) : Char := encodeStd.getD i 'A'

/-- The entry `enc.decodeMap[c]`: the six-bit value of an alphabet character,
`none` where the table holds `0xff`. -/
def decodeMap (c : Char) : Option Nat :=
  match encodeStd.indexOf c with
  | i => if i < 64 then some i else none

/-- One full three-byte group of `Encoding.Encode`:
`val := b0<<16 | b1<<8 | b2`, then the four six-bit slices of `val`. -/
def encodeGroup (b0 b1 b2 : Byte) : List Char :=
  let val := b0.val * 65536 + b1.val * 256 + b2.val
  [encChar (val / 262144 % 64), encChar (val / 4096 % 64),
   encChar (val / 64 % 64), encChar (val % 64)]

/-- The loop and the final partial block of `Encoding.Encode` for the padded
standard encoding, producing the characters of the output. -/
def encodeChars : List Byte → List Char
  | [] => []
  | [b0] =>
    let val := b0.val * 65536
    [encChar (val / 262144 % 64), encChar (val / 4096 % 64), padChar, padChar]
  | [b0, b1] =>
    let val := b0.val * 65536 + b1.val * 256
    [encChar (val / 262144 % 64), encChar (val / 4096 % 64),
     encChar (val / 64 % 64), padChar]
  | b0 :: b1 :: b2 :: rest => encodeGroup b0 b1 b2 ++ encodeChars rest

/-- The function `base64.StdEncoding.EncodeToString`. -/
def EncodeToString (src : List Byte) : String := String.mk (encodeChars src)

/-- The byte `byte(val >> k)` of a decoded quantum, as `val / 2^k % 256`. -/
def byteOf (n : Nat) : Byte := Fin.ofNat n

/-- The quanta of `Encoding.Decode` (through `decodeQuantum`) once the ignored
line breaks are gone: four alphabet characters give three bytes; the last
quantum may be `xx==` (one byte) or `xxx=` (two bytes); anything else is a
`CorruptInputError`. The encoding is not strict, so the unused low bits of a
padded quantum are not inspected. -/
def decodeQuanta : List Char → Option (List Byte)
  | [] => some []
  | [_] => none
  | [_, _] => none
  | [_, _, _] => none
  | c0 :: c1 :: c2 :: c3 :: rest =>
    match decodeMap c0, decodeMap c1 with
    | some d0, some d1 =>
      match decodeMap c2 with
      | some d2 =>
        match decodeMap c3 with
        | some d3 =>
          let val := d0 * 262144 + d1 * 4096 + d2 * 64 + d3
          (decodeQuanta rest).map
            (fun tl => byteOf (val / 65536) :: byteOf (val / 256) :: byteOf val :: tl)
        | none =>
          if c3 = padChar ∧ rest = [] then
            let val := d0 * 262144 + d1 * 4096 + d2 * 64
            some [byteOf (val / 65536), byteOf (val / 256)]
          else none
      | none =>
        if c2 = padChar ∧ c3 = padChar ∧ rest = [] then
          let val := d0 * 262144 + d1 * 4096
          some [byteOf (val / 65536)]
        else none
    | _, _ => none

/-- The function `base64.StdEncoding.DecodeString`, with `none` for a non-nil
error. `Decode` ignores the characters `\r` and `\n` wherever they occur. A Go
string is a byte string; a character outside ASCII is encoded by bytes above
`0x7f`, none of which is in the decode table, so deciding character by
character gives the same verdict and the same bytes. -/
def DecodeString (s : String) : Option (List Byte) :=
  decodeQuanta (s.toList.filter (fun c => c != '\n' && c != '\r'))

/-! ## JavaScript values seen through `syscall/js` -/

/-- A JavaScript number. It is an IEEE-754 double, which `genqart` observes
only through `Value.Int`, `Value.Truthy` and `Value.String`; a number is
represented by these three observations: `int` is Go's `int(float64)`
truncation, `truthy` is false exactly for `NaN` and zero, and `text` is
JavaScript's `String(v)`. -/
structure JSNumber where
  int : Int
  truthy : Bool
  text : String

/-- A JavaScript value, by its `typeof`. The first eight kinds are the ones
`Value.Type` classifies; `bigint` is the one it does not: the host gives a
BigInt no type flag and `Value.Type` panics on it with "bad type flag".
Objects carry their own properties (first binding of a key wins). `byteArray`
is an object of one of the two classes `js.CopyBytesToGo` accepts,
`Uint8Array` (`clamped` false) or `Uint8ClampedArray` (`clamped` true): it
holds `bytes`; `length` is what `Value.Length` reports for it
(`parseInt(v.length)`), the number of bytes unless the property `length` was
redefined on the array; `props` are the properties added to it. Every other
object, arrays and the other typed arrays included, is an `object`. Property
getters that throw are not modelled. -/
inductive Value where
  | undefined
  | null
  | boolean (b : Bool)
  | number (n : JSNumber)
  | string (s : String)
  | symbol
  | object (props : List (String × Value))
  | func (props : List (String × Value))
  | byteArray (clamped : Bool) (bytes : List Byte) (length : Int)
      (props : List (String × Value))
  | bigint

/-- The method `Value.Get`: the property `p` of `v`, `undefined` when `v` has
no such property. It panics if `v` is not a JavaScript object (`TypeObject` or
`TypeFunction`), a BigInt included. -/
def jsGet (v : Value) (p : String) : Option Value :=
  match v with
  | .object props => some ((props.lookup p).getD .undefined)
  | .func props => some ((props.lookup p).getD .undefined)
  | .byteArray _ _ _ props => some ((props.lookup p).getD .undefined)
  | _ => none

/-- The method `Value.Int`: the value truncated to an `int`. It panics if `v`
is not a JavaScript number (a BigInt is not one). -/
def jsInt (v : Value) : Option Int :=
  match v with
  | .number n => some n.int
  | _ => none

/-- The method `Value.Bool`. It panics if `v` is not a JavaScript boolean. -/
def jsBool (v : Value) : Option Bool :=
  match v with
  | .boolean b => some b
  | _ => none

/-- The method `Value.Truthy`: JavaScript truthiness; false for `false`, `0`,
`""`, `null`, `undefined` and `NaN`. It switches on `v.Type()`, which panics
on a BigInt. -/
def jsTruthy (v : Value) : Option Bool :=
  match v with
  | .undefined => some false
  | .null => some false
  | .boolean b => some b
  | .number n => some n.truthy
  | .string s => some (s != "")
  | .symbol => some true
  | .object _ => some true
  | .func _ => some true
  | .byteArray _ _ _ _ => some true
  | .bigint => none

/-- The method `Value.String`: the string itself for a JavaScript string
(handed over in UTF-8), and otherwise a description of the form `<T>` or
`<T: V>`. It does not panic on a type mismatch, but it switches on
`v.Type()`, which panics on a BigInt. -/
def jsString (v : Value) : Option String :=
  match v with
  | .string s => some s
  | .undefined => some "<undefined>"
  | .null => some "<null>"
  | .boolean b => some ("<boolean: " ++ (if b then "true" else "false") ++ ">")
  | .number n => some ("<number: " ++ n.text ++ ">")
  | .symbol => some "<symbol>"
  | .object _ => some "<object>"
  | .func _ => some "<function>"
  | .byteArray _ _ _ _ => some "<object>"
  | .bigint => none

/-- The method `Value.Length`: the JavaScript property `length`, which the
host reports as `parseInt(v.length)`. It panics if `v` is not a JavaScript
object. For an object that is not a byte array only a numeric `length` is
modelled, any other reads as `0`; `js.CopyBytesToGo` panics on such an object
whatever its length. -/
def jsLength (v : Value) : Option Int :=
  match v with
  | .byteArray _ _ length _ => some length
  | .object props =>
    match props.lookup "length" with
    | some (.number n) => some n.int
    | _ => some 0
  | .func props =>
    match props.lookup "length" with
    | some (.number n) => some n.int
    | _ => some 0
  | _ => none

/-- The builtin `make([]byte, n)`: `n` zero bytes; a negative length panics. -/
def makeBytes (n : Int) : Option (List Byte) :=
  if n < 0 then none else some (List.replicate n.toNat 0)

/-- The function `js.CopyBytesToGo`: copies `min(len(dst), len(src))` bytes
from `src` to the front of `dst`. It panics if `src` is not a `Uint8Array` or
`Uint8ClampedArray`. -/
def CopyBytesToGo (dst : List Byte) (src : Value) : Option (List Byte) :=
  match src with
  | .byteArray _ bytes _ _ => some (bytes.take dst.length ++ dst.drop bytes.length)
  | _ => none

/-! ## The engine: `Image`, `SetFile`, `Encode` -/

/-- The record `Image`. `genqart` assigns the eleven named fields; the type's
declaration is not part of `main_qart.go`, so whatever else it holds (the
reference image among it) is the component `rest` of an unspecified type. -/
structure Image (σ : Type) where
  URL : String
  Version : Int
  Mask : Int
  Scale : Int
  Rotation : Int
  Rand : Bool
  Dither : Bool
  OnlyDataBits : Bool
  SaveControl : Bool
  Brightness : Int
  Contrast : Int
  rest : σ
deriving DecidableEq

/-- The engine behind `Image`, a parameter of the development: the methods
`SetFile` and `Encode` are declared outside `main_qart.go`. Following the
spec's description of the collaborator ("a constructor/setter that ingests raw
reference-image bytes", "a single encode operation taking the fully-populated
configuration and returning either raw image bytes or an error"), `SetFile`
reads the record and the bytes and updates the engine-owned rest, leaving the
eleven fields assigned by `genqart` as they are; `Encode` returns the image
bytes or the text of `err.Error()`; `zero` is the zero value of the rest. Both
methods are taken to return. -/
structure Engine (σ : Type) where
  zero : σ
  SetFile : Image σ → List Byte → σ
  Encode : Image σ → Except String (List Byte)

/-- The statement `m.SetFile(data)`: the record after the call. -/
def Engine.setFile (E : Engine σ) (m : Image σ) (data : List Byte) : Image σ :=
  { m with rest := E.SetFile m data }

/-! ## The call `genqart` -/

/-- An effect of a call that is visible outside it, in program order. -/
inductive Event (σ : Type) where
  | console (level : String) (msg : List String)
  | SetFile (data : List Byte)
  | Encode (m : Image σ)
deriving DecidableEq

/-- A value stored in the returned `map[string]interface{}`. -/
inductive GoVal where
  | text (s : String)
  | flag (b : Bool)
deriving DecidableEq

/-- The `interface{}` returned by `genqart`: a Go string, or a map given by
its entries. -/
inductive Ret where
  | str (s : String)
  | map (entries : List (String × GoVal))
deriving DecidableEq

/-- A run of `genqart`: the events it caused, and the returned value, `none`
when the call panicked. -/
structure Run (σ : Type) where
  log : List (Event σ)
  ret : Option Ret
deriving DecidableEq

/-- The expression `opts.Get(name).Int()`. -/
def getInt (opts : Value) (name : String) : Option Int :=
  (jsGet opts name).bind jsInt

/-- The expression `opts.Get(name).Bool()`. -/
def getBool (opts : Value) (name : String) : Option Bool :=
  (jsGet opts name).bind jsBool

/-- Lines 31 to 42: the zero `Image` with `URL` and the ten option fields
assigned from the bag, in source order. -/
def readOptions (E : Engine σ) (url : String) (opts : Value) : Option (Image σ) :=
  (getInt opts "version").bind fun version =>
  (getInt opts "mask").bind fun mask =>
  (getInt opts "scale").bind fun scale =>
  (getInt opts "rotation").bind fun rotation =>
  (getBool opts "rand").bind fun rand =>
  (getBool opts "dither").bind fun dither =>
  (getBool opts "onlyDataBits").bind fun onlyDataBits =>
  (getBool opts "saveControl").bind fun saveControl =>
  (getInt opts "brightness").bind fun brightness =>
  (getInt opts "contrast").bind fun contrast =>
  some (Image.mk url version mask scale rotation rand dither onlyDataBits
    saveControl brightness contrast E.zero)

/-- Lines 57 and 58: a fresh buffer of `args[2].Length()` bytes filled by
`js.CopyBytesToGo`. -/
def copyHalftone (a2 : Value) : Option (List Byte) :=
  (jsLength a2).bind fun n =>
  (makeBytes n).bind fun halftoneBytes =>
  CopyBytesToGo halftoneBytes a2

/-- Lines 63 to 79: `Encode`, then the error string or the result map. -/
def encodeAndPack (E : Engine σ) (log : List (Event σ)) (m : Image σ) : Run σ :=
  match E.Encode m with
  | .error err =>
    ⟨log ++ [.Encode m, .console "error" ["[QART] Encode error:", err]],
     some (.str ("error: " ++ err))⟩
  | .ok png =>
    ⟨log ++ [.Encode m],
     some (.map [("base64EncodedImage", .text (EncodeToString png)),
                 ("success", .flag true)])⟩

/-- Lines 55 to 79: the optional third argument, then the engine. -/
def positionalAndEncode (E : Engine σ) (log : List (Event σ)) (m : Image σ)
    (rest : List Value) : Run σ :=
  match rest with
  | [] => encodeAndPack E log m
  | a2 :: _ =>
    match copyHalftone a2 with
    | none => ⟨log, none⟩
    | some halftoneBytes =>
      encodeAndPack E (log ++ [.SetFile halftoneBytes]) (E.setFile m halftoneBytes)

/-- The function `genqart(this, args)`. The receiver `this` is unused. The
calls `console.Call("error", ...)` are recorded in the log. -/
def genqart (E : Engine σ) (args : List Value) : Run σ :=
  match args with
  | [] => ⟨[.console "error"
        ["[QART] error: missing arguments (need url, options[, halftoneBytes])"]],
      some (.str "error: missing arguments")⟩
  | [_] => ⟨[.console "error"
        ["[QART] error: missing arguments (need url, options[, halftoneBytes])"]],
      some (.str "error: missing arguments")⟩
  | a0 :: opts :: rest =>
    match jsString a0 with
    | none => ⟨[], none⟩
    | some url =>
      match readOptions E url opts with
      | none => ⟨[], none⟩
      | some m =>
        match jsGet opts "halftoneBase64" with
        | none => ⟨[], none⟩
        | some halftone =>
          match jsTruthy halftone with
          | none => ⟨[], none⟩
          | some false => positionalAndEncode E [] m rest
          | some true =>
            match jsString halftone with
            | none => ⟨[], none⟩
            | some b64 =>
              match DecodeString b64 with
              | some decoded =>
                positionalAndEncode E [.SetFile decoded] (E.setFile m decoded) rest
              | none =>
                ⟨[.console "error" ["[QART] invalid base64 in halftoneBase64"]],
                 some (.str "error: invalid base64 in halftoneBase64")⟩

/-! ## Concrete engines and calls -/

/-- An engine that remembers the last reference image. `Encode` rejects a
scale below one and otherwise returns the reference image, or four fixed bytes
when none was set. -/
def echoEngine : Engine (Option (List Byte)) where
  zero := none
  SetFile := fun _ data => some data
  Encode := fun m =>
    if m.Scale ≤ 0 then .error "invalid scale"
    else .ok (m.rest.getD [137, 80, 78, 71])

/-- An ordinary `Uint8Array`: its `length` is the number of its bytes and it
has no added property. -/
def jsUint8Array (bytes : List Byte) : Value :=
  .byteArray false bytes bytes.length []

/-- A JavaScript number with an integer value. -/
def jsNum (n : Int) (text : String) : Value := .number ⟨n, n != 0, text⟩

/-- The bag `{version:0, mask:0, scale:4, rotation:0}`. -/
def exampleOptions : Value :=
  .object [("version", jsNum 0 "0"), ("mask", jsNum 0 "0"), ("scale", jsNum 4 "4"),
    ("rotation", jsNum 0 "0")]

/-- A bag with all ten option fields: zero or false except `scale: 4`. -/
def fullFields : List (String × Value) :=
  [("version", jsNum 0 "0"), ("mask", jsNum 0 "0"), ("scale", jsNum 4 "4"),
    ("rotation", jsNum 0 "0"), ("rand", .boolean false), ("dither", .boolean false),
    ("onlyDataBits", .boolean false), ("saveControl", .boolean false),
    ("brightness", jsNum 0 "0"), ("contrast", jsNum 0 "0")]

/-- A bag with all ten option fields zero or false. -/
def zeroFields : List (String × Value) :=
  [("version", jsNum 0 "0"), ("mask", jsNum 0 "0"), ("scale", jsNum 0 "0"),
    ("rotation", jsNum 0 "0"), ("rand", .boolean false), ("dither", .boolean false),
    ("onlyDataBits", .boolean false), ("saveControl", .boolean false),
    ("brightness", jsNum 0 "0"), ("contrast", jsNum 0 "0")]

/-- An engine without state whose `Encode` returns no bytes and no error. -/
def emptyEngine : Engine Unit where
  zero := ()
  SetFile := fun _ _ => ()
  Encode := fun _ => .ok []

/-! ## Vocabulary of the statements -/

/-- The option fields read with `Int()`. -/
def intFields : List String :=
  ["version", "mask", "scale", "rotation", "brightness", "contrast"]

/-- The option fields read with `Bool()`. -/
def boolFields : List String := ["rand", "dither", "onlyDataBits", "saveControl"]

/-- The bag is an object holding a JavaScript number under `k`. -/
def holdsNumber (opts : Value) (k : String) : Bool :=
  match jsGet opts k with
  | some (.number _) => true
  | _ => false

/-- The bag is an object holding a JavaScript boolean under `k`. -/
def holdsBoolean (opts : Value) (k : String) : Bool :=
  match jsGet opts k with
  | some (.boolean _) => true
  | _ => false

/-- The bag holds a number under each integer field and a boolean under each
boolean field. -/
def optionsTyped (opts : Value) : Bool :=
  intFields.all (holdsNumber opts) && boolFields.all (holdsBoolean opts)

/-- The value is a BigInt, on which `Value.Type` panics. -/
def isBigInt (v : Value) : Bool :=
  match v with
  | .bigint => true
  | _ => false

/-- The bag's `halftoneBase64` is a BigInt. -/
def halftoneIsBigInt (opts : Value) : Bool :=
  match jsGet opts "halftoneBase64" with
  | some halftone => isBigInt halftone
  | none => false

/-- The bag's `halftoneBase64` is not a BigInt and is either falsy or has a
string form that `DecodeString` accepts. -/
def halftoneAccepted (opts : Value) : Bool :=
  match jsGet opts "halftoneBase64" with
  | some halftone =>
    match jsTruthy halftone with
    | some false => true
    | some true =>
      match jsString halftone with
      | some b64 => (DecodeString b64).isSome
      | none => false
    | none => false
  | none => false

/-- The value is a `Uint8Array` or a `Uint8ClampedArray` whose reported
`length` is not negative: the values lines 57 and 58 accept. -/
def isByteArray (v : Value) : Bool :=
  match v with
  | .byteArray _ _ length _ => decide (0 ≤ length)
  | _ => false

/-- The third positional argument, when supplied, is a `Uint8Array` or a
`Uint8ClampedArray` with a `length` that is not negative. -/
def positionalAccepted (rest : List Value) : Bool :=
  match rest with
  | [] => true
  | a2 :: _ => isByteArray a2

/-- The buffer that lines 57 and 58 fill from a byte array holding `bytes`
whose `length` reads `n`: the first `n` bytes of the array, followed by zero
bytes when the array holds fewer. -/
def copiedBytes (bytes : List Byte) (n : Nat) : List Byte :=
  bytes.take n ++ List.replicate (n - bytes.length) 0

/-- The condition under which a call gets as far as `m.Encode()`: two
arguments or more, a payload that is not a BigInt, a typed bag, an accepted
`halftoneBase64` and, when there is a third argument, a `Uint8Array` or
`Uint8ClampedArray` with a `length` that is not negative in that position. -/
def reachesEngine (args : List Value) : Bool :=
  match args with
  | a0 :: opts :: rest =>
    !isBigInt a0 && optionsTyped opts && halftoneAccepted opts && positionalAccepted rest
  | _ => false

/-- The condition under which a call panics: with two arguments or more, a
BigInt payload, an ill-typed bag, a BigInt `halftoneBase64`, or a third
argument that is neither a `Uint8Array` nor a `Uint8ClampedArray`, or is one
with a negative `length`, reached after the bag's reference image was
accepted. -/
def aborts (args : List Value) : Bool :=
  match args with
  | a0 :: opts :: rest =>
    isBigInt a0 || !optionsTyped opts || halftoneIsBigInt opts ||
      (halftoneAccepted opts && !positionalAccepted rest)
  | _ => false

/-- The event is an invocation of `Encode`. -/
def Event.isEncode (e : Event σ) : Bool :=
  match e with
  | .Encode _ => true
  | _ => false

/-- The event is a call of `SetFile`. -/
def Event.isSetFile (e : Event σ) : Bool :=
  match e with
  | .SetFile _ => true
  | _ => false

/-- The number of `Encode` invocations in a log. -/
def encodeCount (log : List (Event σ)) : Nat := log.countP Event.isEncode

/-- The eleven fields assigned by `genqart`, without the engine-owned rest. -/
def Image.config (m : Image σ) : Image Unit := { m with rest := () }

/-- The calls made to the engine, console messages left out. -/
def engineCalls (log : List (Event σ)) : List (Event σ) :=
  log.filter (fun e => Event.isEncode e || Event.isSetFile e)

/-- The success structure: `base64EncodedImage` and `success: true`. -/
def successMap (b64 : String) : Ret :=
  .map [("base64EncodedImage", .text b64), ("success", .flag true)]

/-- A run that got as far as the engine: some calls of `SetFile`, then
`Encode` and the packing of its outcome. -/
def engineRun (E : Engine σ) (r : Run σ) : Prop :=
  ∃ pre m, (∀ e ∈ pre, Event.isSetFile e = true) ∧ r = encodeAndPack E pre m

/-! ## Evaluation of the definitions on concrete inputs -/

example : EncodeToString [] = "" := by decide
example : EncodeToString [0, 0, 0] = "AAAA" := by decide
example : EncodeToString [77, 97, 110] = "TWFu" := by decide
example : EncodeToString [77, 97] = "TWE=" := by decide
example : EncodeToString [77] = "TQ==" := by decide
example : DecodeString "TWFu" = some [77, 97, 110] := by decide
example : DecodeString "TW\nE=" = some [77, 97] := by decide
example : DecodeString "TQ==" = some [77] := by decide
example : DecodeString "TQ=" = none := by decide
example : DecodeString "TQ==TQ==" = none := by decide
example : DecodeString "" = some [] := by decide
example : DecodeString "<undefined>" = none := by decide
example : genqart echoEngine [.string "https://example.com", exampleOptions] = ⟨[], none⟩ := by
  decide
example : genqart echoEngine [.string "https://example.com", .object fullFields]
    = ⟨[.Encode ⟨"https://example.com", 0, 0, 4, 0, false, false, false, false, 0, 0, none⟩],
       some (.map [("base64EncodedImage", .text "iVBORw=="), ("success", .flag true)])⟩ := by
  decide
example : genqart echoEngine [.string "u",
    .object (("halftoneBase64", .string "AAEC") :: fullFields), jsUint8Array [7, 8]]
    = ⟨[.SetFile [0, 1, 2], .SetFile [7, 8],
        .Encode ⟨"u", 0, 0, 4, 0, false, false, false, false, 0, 0, some [7, 8]⟩],
       some (.map [("base64EncodedImage", .text "Bwg="), ("success", .flag true)])⟩ := by
  decide
example : genqart echoEngine [.string "u",
    .object (("halftoneBase64", .string "AAE") :: fullFields), jsUint8Array [7, 8]]
    = ⟨[.console "error" ["[QART] invalid base64 in halftoneBase64"]],
       some (.str "error: invalid base64 in halftoneBase64")⟩ := by
  decide
example : genqart echoEngine [.string "u",
    .object (("halftoneBase64", .string "AAEC\n") :: fullFields), .string "zz"]
    = ⟨[.SetFile [0, 1, 2]], none⟩ := by
  decide
example : genqart echoEngine [.bigint, .object fullFields] = ⟨[], none⟩ := by
  decide
example : genqart echoEngine [.string "u",
    .object (("halftoneBase64", .bigint) :: fullFields)] = ⟨[], none⟩ := by
  decide
example : reachesEngine [.bigint, .object fullFields] = false := by decide
example : aborts [.bigint, .object fullFields] = true := by decide

example : copyHalftone (.byteArray false [7, 8, 9] 2 []) = some [7, 8] := by decide
example : copyHalftone (.byteArray false [7, 8] 4 []) = some [7, 8, 0, 0] := by decide
example : copyHalftone (.byteArray false [7, 8] (-1) []) = none := by decide
example : copyHalftone (jsUint8Array [7, 8]) = some [7, 8] := by decide

/-! ## Lemmas on the accessors -/

theorem getInt_isSome (opts : Value) (k : String) :
    (getInt opts k).isSome = holdsNumber opts k := by
  unfold getInt holdsNumber
  cases h : jsGet opts k with
  | none => rfl
  | some v => cases v <;> rfl

theorem getBool_isSome (opts : Value) (k : String) :
    (getBool opts k).isSome = holdsBoolean opts k := by
  unfold getBool holdsBoolean
  cases h : jsGet opts k with
  | none => rfl
  | some v => cases v <;> rfl

theorem readOptions_isSome (E : Engine σ) (url : String) (opts : Value) :
    (readOptions E url opts).isSome = optionsTyped opts := by
  simp only [optionsTyped, intFields, boolFields, List.all_cons, List.all_nil, Bool.and_true,
    ← getInt_isSome, ← getBool_isSome, readOptions]
  cases getInt opts "version" <;> cases getInt opts "mask" <;>
  cases getInt opts "scale" <;> cases getInt opts "rotation" <;>
  cases getBool opts "rand" <;> cases getBool opts "dither" <;>
  cases getBool opts "onlyDataBits" <;> cases getBool opts "saveControl" <;>
  cases getInt opts "brightness" <;> cases getInt opts "contrast" <;> rfl

theorem copyHalftone_byteArray (clamped : Bool) (bytes : List Byte) (n : Int)
    (props : List (String × Value)) (h : 0 ≤ n) :
    copyHalftone (.byteArray clamped bytes n props) = some (copiedBytes bytes n.toNat) := by
  have h2 : ¬ (n < 0) := by omega
  simp [copyHalftone, jsLength, makeBytes, CopyBytesToGo, h2, copiedBytes]

theorem copiedBytes_length (bytes : List Byte) (n : Nat) :
    (copiedBytes bytes n).length = n := by
  simp only [copiedBytes, List.length_append, List.length_take, List.length_replicate]
  omega

theorem copiedBytes_self (bytes : List Byte) : copiedBytes bytes bytes.length = bytes := by
  simp [copiedBytes]

theorem copyHalftone_isSome (a2 : Value) :
    (copyHalftone a2).isSome = isByteArray a2 := by
  cases a2 with
  | byteArray clamped bytes n props =>
    by_cases h : 0 ≤ n
    · simp [copyHalftone_byteArray clamped bytes n props h, isByteArray, h]
    · simp [copyHalftone, jsLength, makeBytes, isByteArray, h]
  | object props =>
    simp only [copyHalftone, jsLength, isByteArray]
    split <;> simp [makeBytes, CopyBytesToGo]
  | func props =>
    simp only [copyHalftone, jsLength, isByteArray]
    split <;> simp [makeBytes, CopyBytesToGo]
  | _ => rfl

/-! ## Lemmas on the base64 encoding -/

theorem encChar_spec : ∀ i < 64, decodeMap (encChar i) = some i ∧
    (encChar i != '\n' && encChar i != '\r') = true := by
  decide

theorem decodeMap_padChar : decodeMap padChar = none := by decide

theorem byteOf_val (b : Byte) (n : Nat) (h : n % 256 = b.val) : byteOf n = b := by
  apply Fin.ext
  simpa [byteOf, Fin.ofNat] using h

theorem decodeQuanta_group (b0 b1 b2 : Byte) (rest : List Char) :
    decodeQuanta (encodeGroup b0 b1 b2 ++ rest)
      = (decodeQuanta rest).map (fun tl => b0 :: b1 :: b2 :: tl) := by
  obtain ⟨h0, -⟩ := encChar_spec ((b0.val * 65536 + b1.val * 256 + b2.val) / 262144 % 64)
    (Nat.mod_lt _ (by decide))
  obtain ⟨h1, -⟩ := encChar_spec ((b0.val * 65536 + b1.val * 256 + b2.val) / 4096 % 64)
    (Nat.mod_lt _ (by decide))
  obtain ⟨h2, -⟩ := encChar_spec ((b0.val * 65536 + b1.val * 256 + b2.val) / 64 % 64)
    (Nat.mod_lt _ (by decide))
  obtain ⟨h3, -⟩ := encChar_spec ((b0.val * 65536 + b1.val * 256 + b2.val) % 64)
    (Nat.mod_lt _ (by decide))
  have e0 := b0.isLt
  have e1 := b1.isLt
  have e2 := b2.isLt
  simp only [encodeGroup, List.cons_append, List.nil_append, decodeQuanta, h0, h1, h2, h3]
  congr 1
  funext tl
  rw [byteOf_val b0 _ (by omega), byteOf_val b1 _ (by omega), byteOf_val b2 _ (by omega)]

theorem decodeQuanta_encodeChars (src : List Byte) :
    decodeQuanta (encodeChars src) = some src := by
  induction src using encodeChars.induct with
  | case1 => rfl
  | case2 b0 =>
    obtain ⟨h0, -⟩ := encChar_spec (b0.val * 65536 / 262144 % 64) (Nat.mod_lt _ (by decide))
    obtain ⟨h1, -⟩ := encChar_spec (b0.val * 65536 / 4096 % 64) (Nat.mod_lt _ (by decide))
    have e0 := b0.isLt
    simp only [encodeChars, decodeQuanta, h0, h1, decodeMap_padChar, and_self, if_true]
    rw [byteOf_val b0 _ (by omega)]
  | case3 b0 b1 =>
    obtain ⟨h0, -⟩ := encChar_spec ((b0.val * 65536 + b1.val * 256) / 262144 % 64)
      (Nat.mod_lt _ (by decide))
    obtain ⟨h1, -⟩ := encChar_spec ((b0.val * 65536 + b1.val * 256) / 4096 % 64)
      (Nat.mod_lt _ (by decide))
    obtain ⟨h2, -⟩ := encChar_spec ((b0.val * 65536 + b1.val * 256) / 64 % 64)
      (Nat.mod_lt _ (by decide))
    have e0 := b0.isLt
    have e1 := b1.isLt
    simp only [encodeChars, decodeQuanta, h0, h1, h2, decodeMap_padChar, and_self, if_true]
    rw [byteOf_val b0 _ (by omega), byteOf_val b1 _ (by omega)]
  | case4 b0 b1 b2 rest ih =>
    rw [encodeChars, decodeQuanta_group, ih]
    rfl

theorem encodeChars_no_linebreak (src : List Byte) :
    ∀ c ∈ encodeChars src, (c != '\n' && c != '\r') = true := by
  have key : ∀ i, (encChar (i % 64) != '\n' && encChar (i % 64) != '\r') = true :=
    fun i => (encChar_spec (i % 64) (Nat.mod_lt _ (by decide))).2
  have pad : (padChar != '\n' && padChar != '\r') = true := by decide
  induction src using encodeChars.induct with
  | case1 => simp [encodeChars]
  | case2 b0 =>
    intro c hc
    simp only [encodeChars, List.mem_cons, List.mem_singleton, List.not_mem_nil,
      or_false] at hc
    rcases hc with rfl | rfl | rfl | rfl <;> first | exact key _ | exact pad
  | case3 b0 b1 =>
    intro c hc
    simp only [encodeChars, List.mem_cons, List.mem_singleton, List.not_mem_nil,
      or_false] at hc
    rcases hc with rfl | rfl | rfl | rfl <;> first | exact key _ | exact pad
  | case4 b0 b1 b2 rest ih =>
    intro c hc
    rw [encodeChars, List.mem_append] at hc
    rcases hc with hc | hc
    · simp only [encodeGroup, List.mem_cons, List.mem_singleton, List.not_mem_nil,
        or_false] at hc
      rcases hc with rfl | rfl | rfl | rfl <;> exact key _
    · exact ih c hc

theorem DecodeString_EncodeToString (src : List Byte) :
    DecodeString (EncodeToString src) = some src := by
  show decodeQuanta (List.filter _ (encodeChars src)) = some src
  rw [List.filter_eq_self.mpr (encodeChars_no_linebreak src)]
  exact decodeQuanta_encodeChars src

theorem EncodeToString_eq_empty (src : List Byte) :
    EncodeToString src = "" ↔ src = [] := by
  constructor
  · intro h
    cases src with
    | nil => rfl
    | cons b0 t =>
      exfalso
      have h2 : encodeChars (b0 :: t) = [] := by
        have := congrArg String.data h
        simpa [EncodeToString] using this
      rcases t with _ | ⟨b1, _ | ⟨b2, t⟩⟩ <;> simp [encodeChars, encodeGroup] at h2
  · rintro rfl
    rfl

/-! ## The shape of a run -/

theorem jsGet_isSome_of_isSome (opts : Value) (k k2 : String)
    (h : (jsGet opts k).isSome = true) : (jsGet opts k2).isSome = true := by
  cases opts <;> simp_all [jsGet]

theorem jsGet_isSome_of_typed (opts : Value) (k : String) (h : optionsTyped opts = true) :
    (jsGet opts k).isSome = true := by
  apply jsGet_isSome_of_isSome opts "version"
  have hv : holdsNumber opts "version" = true := by
    simp only [optionsTyped, intFields, List.all_cons, Bool.and_eq_true] at h
    exact h.1.1
  unfold holdsNumber at hv
  cases hg : jsGet opts "version" with
  | none => simp [hg] at hv
  | some v => rfl

theorem positionalAndEncode_shape (E : Engine σ) (pre : List (Event σ)) (m : Image σ)
    (rest : List Value) (hpre : ∀ e ∈ pre, Event.isSetFile e = true) :
    (positionalAccepted rest = true ∧ engineRun E (positionalAndEncode E pre m rest)) ∨
    (positionalAccepted rest = false ∧ positionalAndEncode E pre m rest = ⟨pre, none⟩) := by
  cases rest with
  | nil => exact Or.inl ⟨rfl, pre, m, hpre, rfl⟩
  | cons a2 tl =>
    have hs := copyHalftone_isSome a2
    cases hc : copyHalftone a2 with
    | none =>
      right
      rw [hc] at hs
      exact ⟨by simpa [positionalAccepted] using hs.symm, by simp [positionalAndEncode, hc]⟩
    | some bytes =>
      left
      rw [hc] at hs
      refine ⟨by simpa [positionalAccepted] using hs.symm, pre ++ [.SetFile bytes],
        E.setFile m bytes, ?_, ?_⟩
      · intro e he
        rcases List.mem_append.mp he with h | h
        · exact hpre e h
        · rw [List.mem_singleton.mp h]; rfl
      · simp [positionalAndEncode, hc]

theorem jsString_eq_none (v : Value) : jsString v = none ↔ isBigInt v = true := by
  cases v <;> simp [jsString, isBigInt]

theorem jsTruthy_eq_none (v : Value) : jsTruthy v = none ↔ isBigInt v = true := by
  cases v <;> simp [jsTruthy, isBigInt]

theorem jsString_of_not_bigint (v : Value) (h : isBigInt v = false) :
    ∃ s, jsString v = some s := by
  cases hs : jsString v with
  | none => rw [(jsString_eq_none v).mp hs] at h; cases h
  | some s => exact ⟨s, rfl⟩

theorem genqart_typed (E : Engine σ) (a0 opts : Value) (rest : List Value) (url : String)
    (h : optionsTyped opts = true) (hurl : jsString a0 = some url) :
    ∃ m halftone, readOptions E url opts = some m ∧
      jsGet opts "halftoneBase64" = some halftone ∧
      genqart E (a0 :: opts :: rest) =
        match jsTruthy halftone with
        | none => ⟨[], none⟩
        | some false => positionalAndEncode E [] m rest
        | some true =>
          match jsString halftone with
          | none => ⟨[], none⟩
          | some b64 =>
            match DecodeString b64 with
            | some decoded =>
              positionalAndEncode E [.SetFile decoded] (E.setFile m decoded) rest
            | none =>
              ⟨[.console "error" ["[QART] invalid base64 in halftoneBase64"]],
               some (.str "error: invalid base64 in halftoneBase64")⟩ := by
  have h1 := readOptions_isSome E url opts
  rw [h] at h1
  obtain ⟨m, hm⟩ := Option.isSome_iff_exists.mp h1
  obtain ⟨halftone, hh⟩ := Option.isSome_iff_exists.mp
    (jsGet_isSome_of_typed opts "halftoneBase64" h)
  exact ⟨m, halftone, hm, hh, by simp only [genqart, hurl, hm, hh]⟩

theorem genqart_bigint_payload (E : Engine σ) (a0 opts : Value) (rest : List Value)
    (h : isBigInt a0 = true) : genqart E (a0 :: opts :: rest) = ⟨[], none⟩ := by
  simp only [genqart, (jsString_eq_none a0).mpr h]

theorem genqart_untyped (E : Engine σ) (a0 opts : Value) (rest : List Value)
    (h : optionsTyped opts = false) : genqart E (a0 :: opts :: rest) = ⟨[], none⟩ := by
  have hm : ∀ url, readOptions E url opts = none := by
    intro url
    have h1 := readOptions_isSome E url opts
    rw [h] at h1
    cases hr : readOptions E url opts with
    | none => rfl
    | some m => rw [hr] at h1; cases h1
  cases hs : jsString a0 with
  | none => simp only [genqart, hs]
  | some url => simp only [genqart, hs, hm url]

theorem genqart_shape (E : Engine σ) (args : List Value) :
    (reachesEngine args = true ∧ aborts args = false ∧ engineRun E (genqart E args)) ∨
    (reachesEngine args = false ∧ aborts args = true ∧ (genqart E args).ret = none ∧
        ∀ e ∈ (genqart E args).log, Event.isSetFile e = true) ∨
    (reachesEngine args = false ∧ aborts args = false ∧
        ∃ s msg, genqart E args = ⟨[.console "error" msg], some (.str s)⟩) := by
  rcases args with _ | ⟨a0, _ | ⟨opts, rest⟩⟩
  · exact Or.inr (Or.inr ⟨rfl, rfl, _, _, rfl⟩)
  · exact Or.inr (Or.inr ⟨rfl, rfl, _, _, rfl⟩)
  · cases hb0 : isBigInt a0 with
    | true =>
      right; left
      rw [genqart_bigint_payload E a0 opts rest hb0]
      simp [reachesEngine, aborts, hb0]
    | false =>
    obtain ⟨url, hurl⟩ := jsString_of_not_bigint a0 hb0
    cases ht : optionsTyped opts with
    | false =>
      right; left
      rw [genqart_untyped E a0 opts rest ht]
      simp [reachesEngine, aborts, ht]
    | true =>
      obtain ⟨m, halftone, -, hh, hg⟩ := genqart_typed E a0 opts rest url ht hurl
      rw [hg]
      cases htr : jsTruthy halftone with
      | none =>
        have hbi : isBigInt halftone = true := (jsTruthy_eq_none halftone).mp htr
        have ha : halftoneAccepted opts = false := by simp [halftoneAccepted, hh, htr]
        have hi : halftoneIsBigInt opts = true := by simp [halftoneIsBigInt, hh, hbi]
        right; left
        simp [reachesEngine, aborts, ht, ha, hi]
      | some t =>
        have hbi : isBigInt halftone = false := by
          cases hx : isBigInt halftone with
          | false => rfl
          | true => rw [(jsTruthy_eq_none halftone).mpr hx] at htr; cases htr
        have hi : halftoneIsBigInt opts = false := by simp [halftoneIsBigInt, hh, hbi]
        obtain ⟨b64, hb64⟩ := jsString_of_not_bigint halftone hbi
        cases t with
        | false =>
          have ha : halftoneAccepted opts = true := by simp [halftoneAccepted, hh, htr]
          rcases positionalAndEncode_shape E [] m rest (by simp) with ⟨hp, hr⟩ | ⟨hp, hr⟩
          · left
            exact ⟨by simp [reachesEngine, hb0, ht, ha, hp],
              by simp [aborts, hb0, ht, ha, hi, hp], hr⟩
          · right; left
            simp only [hr]
            simp [reachesEngine, aborts, ht, ha, hp]
        | true =>
          simp only [hb64]
          cases hd : DecodeString b64 with
          | none =>
            have ha : halftoneAccepted opts = false := by
              simp [halftoneAccepted, hh, htr, hb64, hd]
            right; right
            exact ⟨by simp [reachesEngine, ht, ha],
              by simp [aborts, hb0, ht, ha, hi], _, _, rfl⟩
          | some decoded =>
            have ha : halftoneAccepted opts = true := by
              simp [halftoneAccepted, hh, htr, hb64, hd]
            rcases positionalAndEncode_shape E [.SetFile decoded]
                (E.setFile m decoded) rest
                (by intro e he; rw [List.mem_singleton.mp he]; rfl) with ⟨hp, hr⟩ | ⟨hp, hr⟩
            · left
              exact ⟨by simp [reachesEngine, hb0, ht, ha, hp],
                by simp [aborts, hb0, ht, ha, hi, hp], hr⟩
            · right; left
              simp only [hr]
              refine ⟨by simp [reachesEngine, ht, ha, hp], by simp [aborts, ht, ha, hp],
                trivial, ?_⟩
              intro e he
              rw [List.mem_singleton.mp he]; rfl

/-! ## The engine invocation and what is packed from it -/

theorem encodeAndPack_log (E : Engine σ) (pre : List (Event σ)) (m : Image σ) :
    ∃ post, (encodeAndPack E pre m).log = pre ++ .Encode m :: post ∧
      ∀ e ∈ post, Event.isEncode e = false ∧ Event.isSetFile e = false := by
  unfold encodeAndPack
  cases E.Encode m with
  | error err =>
    refine ⟨[.console "error" ["[QART] Encode error:", err]], rfl, ?_⟩
    intro e he
    rw [List.mem_singleton.mp he]
    exact ⟨rfl, rfl⟩
  | ok png => exact ⟨[], rfl, by simp⟩

theorem encodeAndPack_ret_error (E : Engine σ) (pre : List (Event σ)) (m : Image σ)
    (err : String) (h : E.Encode m = .error err) :
    (encodeAndPack E pre m).ret = some (.str ("error: " ++ err)) := by
  simp only [encodeAndPack, h]

theorem encodeAndPack_ret_ok (E : Engine σ) (pre : List (Event σ)) (m : Image σ)
    (png : List Byte) (h : E.Encode m = .ok png) :
    (encodeAndPack E pre m).ret = some (successMap (EncodeToString png)) := by
  simp only [encodeAndPack, h, successMap]

theorem not_isEncode_of_isSetFile (e : Event σ) (h : Event.isSetFile e = true) :
    Event.isEncode e = false := by
  cases e <;> simp_all [Event.isSetFile, Event.isEncode]

theorem encodeAndPack_mem (E : Engine σ) (pre : List (Event σ)) (m m2 : Image σ)
    (hpre : ∀ e ∈ pre, Event.isSetFile e = true)
    (h : Event.Encode m2 ∈ (encodeAndPack E pre m).log) : m2 = m := by
  obtain ⟨post, hlog, hpost⟩ := encodeAndPack_log E pre m
  rw [hlog, List.mem_append, List.mem_cons] at h
  rcases h with h | h | h
  · have := hpre _ h
    simp [Event.isSetFile] at this
  · exact Event.Encode.inj h
  · have := (hpost _ h).1
    simp [Event.isEncode] at this

theorem encodeAndPack_count (E : Engine σ) (pre : List (Event σ)) (m : Image σ)
    (hpre : ∀ e ∈ pre, Event.isSetFile e = true) :
    encodeCount (encodeAndPack E pre m).log = 1 := by
  obtain ⟨post, hlog, hpost⟩ := encodeAndPack_log E pre m
  have h1 : List.countP Event.isEncode pre = 0 :=
    List.countP_eq_zero.mpr (fun e he => by simp [not_isEncode_of_isSetFile e (hpre e he)])
  have h2 : List.countP Event.isEncode post = 0 :=
    List.countP_eq_zero.mpr (fun e he => by simp [(hpost e he).1])
  simp [encodeCount, hlog, List.countP_append, List.countP_cons, h1, h2, Event.isEncode]

theorem encodeAndPack_order (E : Engine σ) (pre : List (Event σ)) (m : Image σ)
    (hpre : ∀ e ∈ pre, Event.isSetFile e = true) :
    (encodeAndPack E pre m).log.Pairwise
      (fun earlier later => Event.isEncode earlier = true → Event.isSetFile later = false) := by
  obtain ⟨post, hlog, hpost⟩ := encodeAndPack_log E pre m
  rw [hlog, List.pairwise_append]
  refine ⟨?_, ?_, ?_⟩
  · exact List.pairwise_of_forall_mem_list
      (fun a ha _ _ hc => by simp [not_isEncode_of_isSetFile a (hpre a ha)] at hc)
  · rw [List.pairwise_cons]
    refine ⟨fun b hb _ => (hpost b hb).2, ?_⟩
    exact List.pairwise_of_forall_mem_list (fun a ha _ _ hc => by simp [(hpost a ha).1] at hc)
  · intro a ha b _ hc
    simp [not_isEncode_of_isSetFile a (hpre a ha)] at hc

theorem pairwise_of_no_encode (log : List (Event σ))
    (h : ∀ e ∈ log, Event.isEncode e = false) :
    log.Pairwise
      (fun earlier later => Event.isEncode earlier = true → Event.isSetFile later = false) :=
  List.pairwise_of_forall_mem_list (fun a ha _ _ hc => by simp [h a ha] at hc)

theorem encodeAndPack_engineCalls (E : Engine σ) (pre : List (Event σ)) (m : Image σ)
    (hpre : ∀ e ∈ pre, Event.isSetFile e = true) :
    engineCalls (encodeAndPack E pre m).log = pre ++ [.Encode m] := by
  obtain ⟨post, hlog, hpost⟩ := encodeAndPack_log E pre m
  have hnone : List.filter (fun e => Event.isEncode e || Event.isSetFile e) post = [] := by
    rw [List.filter_eq_nil_iff]
    intro e he
    simp [(hpost e he).1, (hpost e he).2]
  have hall : List.filter (fun e => Event.isEncode e || Event.isSetFile e) pre = pre := by
    rw [List.filter_eq_self]
    intro e he
    simp [hpre e he]
  simp only [engineCalls, hlog, List.filter_append, List.filter_cons, hnone, hall]
  rfl

theorem genqart_of_encode_mem (E : Engine σ) (args : List Value) (m : Image σ)
    (h : Event.Encode m ∈ (genqart E args).log) :
    reachesEngine args = true ∧ ∃ pre, (∀ e ∈ pre, Event.isSetFile e = true) ∧
      genqart E args = encodeAndPack E pre m := by
  rcases genqart_shape E args with ⟨hr, -, pre, m0, hpre, hrun⟩ | ⟨-, -, -, hlog⟩ |
    ⟨-, -, s, msg, hrun⟩
  · rw [hrun] at h
    have := encodeAndPack_mem E pre m0 m hpre h
    subst this
    exact ⟨hr, pre, hpre, hrun⟩
  · have := hlog _ h
    simp [Event.isSetFile] at this
  · rw [hrun] at h
    simp at h

/-! ## The record handed to the engine -/

theorem readOptions_fields (E : Engine σ) (url : String) (opts : Value) (m : Image σ)
    (h : readOptions E url opts = some m) :
    m.URL = url ∧
    getInt opts "version" = some m.Version ∧ getInt opts "mask" = some m.Mask ∧
    getInt opts "scale" = some m.Scale ∧ getInt opts "rotation" = some m.Rotation ∧
    getBool opts "rand" = some m.Rand ∧ getBool opts "dither" = some m.Dither ∧
    getBool opts "onlyDataBits" = some m.OnlyDataBits ∧
    getBool opts "saveControl" = some m.SaveControl ∧
    getInt opts "brightness" = some m.Brightness ∧
    getInt opts "contrast" = some m.Contrast ∧ m.rest = E.zero := by
  simp only [readOptions, Option.bind_eq_some] at h
  obtain ⟨v, hv, k, hk, s, hs, r, hr, ra, hra, d, hd, o, ho, sc, hsc, b, hb, c, hc, hm⟩ := h
  cases hm
  exact ⟨rfl, hv, hk, hs, hr, hra, hd, ho, hsc, hb, hc, rfl⟩

theorem positionalAndEncode_config (E : Engine σ) (pre : List (Event σ)) (m m2 : Image σ)
    (rest : List Value) (hpre : ∀ e ∈ pre, Event.isSetFile e = true)
    (h : Event.Encode m2 ∈ (positionalAndEncode E pre m rest).log) :
    Image.config m2 = Image.config m := by
  cases rest with
  | nil =>
    have := encodeAndPack_mem E pre m m2 hpre h
    rw [this]
  | cons a2 tl =>
    cases hc : copyHalftone a2 with
    | none =>
      simp only [positionalAndEncode, hc] at h
      have := hpre _ h
      simp [Event.isSetFile] at this
    | some bytes =>
      simp only [positionalAndEncode, hc] at h
      have hpre2 : ∀ e ∈ pre ++ [Event.SetFile bytes], Event.isSetFile e = true := by
        intro e he
        rcases List.mem_append.mp he with h1 | h1
        · exact hpre e h1
        · rw [List.mem_singleton.mp h1]; rfl
      have := encodeAndPack_mem E _ _ m2 hpre2 h
      rw [this]
      rfl

theorem genqart_encode_config (E : Engine σ) (a0 opts : Value) (rest : List Value)
    (m : Image σ) (h : Event.Encode m ∈ (genqart E (a0 :: opts :: rest)).log) :
    ∃ url m0, jsString a0 = some url ∧ readOptions E url opts = some m0 ∧
      Image.config m = Image.config m0 := by
  cases hurl : jsString a0 with
  | none =>
    rw [genqart_bigint_payload E a0 opts rest ((jsString_eq_none a0).mp hurl)] at h
    simp at h
  | some url =>
  cases ht : optionsTyped opts with
  | false =>
    rw [genqart_untyped E a0 opts rest ht] at h
    simp at h
  | true =>
    obtain ⟨m0, halftone, hm0, -, hg⟩ := genqart_typed E a0 opts rest url ht hurl
    refine ⟨url, m0, rfl, hm0, ?_⟩
    rw [hg] at h
    cases htr : jsTruthy halftone with
    | none =>
      simp [htr] at h
    | some t =>
      cases t with
      | false =>
        simp only [htr] at h
        exact positionalAndEncode_config E [] m0 m rest (by simp) h
      | true =>
        simp only [htr] at h
        cases hs : jsString halftone with
        | none => simp [hs] at h
        | some b64 =>
          simp only [hs] at h
          cases hd : DecodeString b64 with
          | none =>
            simp [hd] at h
          | some decoded =>
            simp only [hd] at h
            have := positionalAndEncode_config E [.SetFile decoded]
              (E.setFile m0 decoded) m rest
              (by intro e he; rw [List.mem_singleton.mp he]; rfl) h
            rw [this]
            rfl

theorem genqart_ret_cases (E : Engine σ) (args : List Value) :
    (aborts args = true → (genqart E args).ret = none) ∧
    (aborts args = false →
      (∃ s, (genqart E args).ret = some (.str s)) ∨
      (∃ b64, (genqart E args).ret =
        some (.map [("base64EncodedImage", .text b64), ("success", .flag true)]))) ∧
    ((∃ entries, (genqart E args).ret = some (.map entries)) ↔
      reachesEngine args = true ∧
        ∃ m png, Event.Encode m ∈ (genqart E args).log ∧ E.Encode m = .ok png) := by
  rcases genqart_shape E args with ⟨hr, ha, pre, m0, hpre, hrun⟩ | ⟨hr, ha, hret, hlog⟩ |
    ⟨hr, ha, s, msg, hrun⟩
  · obtain ⟨post, hl, -⟩ := encodeAndPack_log E pre m0
    have hmem : Event.Encode m0 ∈ (genqart E args).log := by
      rw [hrun, hl]
      simp
    refine ⟨(fun h => by rw [ha] at h; cases h), fun _ => ?_, ?_⟩
    · cases he : E.Encode m0 with
      | error err =>
        exact Or.inl ⟨_, by rw [hrun]; exact encodeAndPack_ret_error E pre m0 err he⟩
      | ok png =>
        exact Or.inr ⟨_, by rw [hrun]; exact encodeAndPack_ret_ok E pre m0 png he⟩
    · constructor
      · rintro ⟨entries, hent⟩
        refine ⟨hr, m0, ?_⟩
        cases he : E.Encode m0 with
        | error err =>
          rw [hrun, encodeAndPack_ret_error E pre m0 err he] at hent
          cases hent
        | ok png => exact ⟨png, hmem, rfl⟩
      · rintro ⟨-, m, png, hm, hok⟩
        rw [hrun] at hm
        have := encodeAndPack_mem E pre m0 m hpre hm
        subst this
        exact ⟨_, by rw [hrun]; exact encodeAndPack_ret_ok E pre m png hok⟩
  · refine ⟨fun _ => hret, (fun h => by rw [ha] at h; cases h), ?_⟩
    constructor
    · rintro ⟨entries, hent⟩
      rw [hret] at hent
      cases hent
    · rintro ⟨h, -⟩
      rw [hr] at h
      cases h
  · refine ⟨(fun h => by rw [ha] at h; cases h), fun _ => Or.inl ⟨s, by rw [hrun]⟩, ?_⟩
    constructor
    · rintro ⟨entries, hent⟩
      rw [hrun] at hent
      cases hent
    · rintro ⟨h, -⟩
      rw [hr] at h
      cases h

/-! ## The claims -/

/-- C1. A call with fewer than two arguments returns the string
"error: missing arguments"; its only effect is one console message, so neither
`SetFile` nor `Encode` is invoked, and the run is the same whatever the
arguments are (none is read). -/
theorem genqart_missing_arguments (E : Engine σ) (args : List Value)
    (h : args.length < 2) :
    genqart E args =
      ⟨[.console "error"
          ["[QART] error: missing arguments (need url, options[, halftoneBytes])"]],
       some (.str "error: missing arguments")⟩ ∧
    engineCalls (genqart E args).log = [] := by
  rcases args with _ | ⟨a0, _ | ⟨opts, rest⟩⟩
  · exact ⟨rfl, rfl⟩
  · exact ⟨rfl, rfl⟩
  · simp only [List.length_cons] at h
    omega

/-- Witness of C1: the call with the single argument `"https://example.com"`. -/
theorem genqart_missing_arguments_witness :
    [Value.string "https://example.com"].length < 2 ∧
    genqart echoEngine [Value.string "https://example.com"] =
      ⟨[.console "error"
          ["[QART] error: missing arguments (need url, options[, halftoneBytes])"]],
       some (.str "error: missing arguments")⟩ ∧
    engineCalls (genqart echoEngine [Value.string "https://example.com"]).log = [] :=
  ⟨by decide, genqart_missing_arguments echoEngine _ (by decide)⟩

/-- C2, as stated, fails: with two arguments and a bag that carries only the
truthy, undecodable `halftoneBase64: "!"`, the call panics at
`opts.Get("version").Int()` before the reference image is looked at, and
returns nothing. -/
theorem genqart_invalid_halftone_untyped_bag :
    2 ≤ [Value.string "u", Value.object [("halftoneBase64", .string "!")]].length ∧
    (jsGet (.object [("halftoneBase64", .string "!")]) "halftoneBase64").bind jsTruthy
      = some true ∧
    jsString (.string "!") = some "!" ∧
    DecodeString "!" = none ∧
    genqart echoEngine [.string "u", .object [("halftoneBase64", .string "!")]]
      = ⟨[], none⟩ := by
  decide

/-- C2, amended. For a call with at least two arguments whose payload is not
a BigInt, whose bag holds a number under each integer option field and a
boolean under each boolean option field, and carries a truthy `halftoneBase64`
whose string form `base64.StdEncoding.DecodeString` rejects, the result is the
string "error: invalid base64 in halftoneBase64", one console message is the
only effect, and neither `SetFile` nor `Encode` is invoked, whatever follows
the second argument. -/
theorem genqart_invalid_halftone (E : Engine σ) (a0 opts halftone : Value)
    (rest : List Value) (b64 : String) (hpayload : isBigInt a0 = false)
    (hopts : optionsTyped opts = true)
    (hget : jsGet opts "halftoneBase64" = some halftone)
    (htruthy : jsTruthy halftone = some true)
    (hstring : jsString halftone = some b64)
    (hdecode : DecodeString b64 = none) :
    genqart E (a0 :: opts :: rest) =
      ⟨[.console "error" ["[QART] invalid base64 in halftoneBase64"]],
       some (.str "error: invalid base64 in halftoneBase64")⟩ ∧
    engineCalls (genqart E (a0 :: opts :: rest)).log = [] := by
  obtain ⟨url, hurl⟩ := jsString_of_not_bigint a0 hpayload
  obtain ⟨m, halftone2, -, hh, hg⟩ := genqart_typed E a0 opts rest url hopts hurl
  rw [hget] at hh
  cases hh
  rw [hg]
  simp only [htruthy, hstring, hdecode]
  exact ⟨trivial, rfl⟩

/-- Witness of C2 (amended): a full bag with `halftoneBase64: "AAE"` and a
third positional argument. -/
theorem genqart_invalid_halftone_witness :
    genqart echoEngine [.string "u",
        .object (("halftoneBase64", .string "AAE") :: fullFields),
        jsUint8Array [7, 8]] =
      ⟨[.console "error" ["[QART] invalid base64 in halftoneBase64"]],
       some (.str "error: invalid base64 in halftoneBase64")⟩ ∧
    engineCalls (genqart echoEngine [.string "u",
        .object (("halftoneBase64", .string "AAE") :: fullFields),
        jsUint8Array [7, 8]]).log = [] :=
  genqart_invalid_halftone echoEngine (.string "u")
    (.object (("halftoneBase64", .string "AAE") :: fullFields)) (.string "AAE")
    [jsUint8Array [7, 8]] "AAE" rfl (by decide) rfl rfl rfl (by decide)

/-- C3, as stated, fails: with three arguments and a bag that carries only a
validly encoded `halftoneBase64`, the call panics while reading the option
fields and `SetFile` is never called. -/
theorem genqart_setfile_untyped_bag :
    3 ≤ [Value.string "u", Value.object [("halftoneBase64", .string "AAEC")],
      jsUint8Array [7, 8]].length ∧
    DecodeString "AAEC" = some [0, 1, 2] ∧
    genqart echoEngine [.string "u", .object [("halftoneBase64", .string "AAEC")],
      jsUint8Array [7, 8]] = ⟨[], none⟩ := by
  decide

/-- C3, amended. For a call with at least three arguments whose payload is
not a BigInt, whose bag is typed (a number under each integer option field, a
boolean under each boolean one) and carries a truthy `halftoneBase64` that
decodes to `decoded`, and whose third argument is a `Uint8Array` or
`Uint8ClampedArray` holding `bytes` whose `length` reads `n`, not negative:
`SetFile` is called with `decoded`, then with a buffer of `n` bytes, that is
of length `args[2].Length()`, and `Encode` is invoked next, on the record that
the two calls of `SetFile` produced in that order; nothing after the
invocation of `Encode` is an engine call. The buffer holds the first `n` bytes
of the array, zero-filled if the array is shorter; when `length` is the
array's own number of bytes it is `bytes`, byte for byte. -/
theorem genqart_setfile_order (E : Engine σ) (a0 opts halftone : Value)
    (clamped : Bool) (bytes decoded : List Byte) (n : Int)
    (props : List (String × Value)) (tl : List Value) (b64 : String)
    (hpayload : isBigInt a0 = false) (hopts : optionsTyped opts = true)
    (hget : jsGet opts "halftoneBase64" = some halftone)
    (htruthy : jsTruthy halftone = some true)
    (hstring : jsString halftone = some b64)
    (hdecode : DecodeString b64 = some decoded) (hlength : 0 ≤ n) :
    jsLength (.byteArray clamped bytes n props) = some n ∧
    copyHalftone (.byteArray clamped bytes n props) = some (copiedBytes bytes n.toNat) ∧
    ((copiedBytes bytes n.toNat).length : Int) = n ∧
    (n = bytes.length → copiedBytes bytes n.toNat = bytes) ∧
    ∃ url m, jsString a0 = some url ∧ readOptions E url opts = some m ∧
      engineCalls
          (genqart E (a0 :: opts :: .byteArray clamped bytes n props :: tl)).log =
        [.SetFile decoded, .SetFile (copiedBytes bytes n.toNat),
         .Encode (E.setFile (E.setFile m decoded) (copiedBytes bytes n.toNat))] := by
  refine ⟨rfl, copyHalftone_byteArray clamped bytes n props hlength, ?_, ?_, ?_⟩
  · rw [copiedBytes_length]
    omega
  · intro hn
    rw [hn, Int.toNat_ofNat]
    exact copiedBytes_self bytes
  obtain ⟨url, hurl⟩ := jsString_of_not_bigint a0 hpayload
  obtain ⟨m, halftone2, hm, hh, hg⟩ := genqart_typed E a0 opts _ url hopts hurl
  rw [hget] at hh
  cases hh
  refine ⟨url, m, hurl, hm, ?_⟩
  rw [hg]
  simp only [htruthy, hstring, hdecode, positionalAndEncode,
    copyHalftone_byteArray clamped bytes n props hlength]
  exact encodeAndPack_engineCalls E _ _
    (by intro e he
        simp only [List.mem_append, List.mem_singleton] at he
        rcases he with rfl | rfl <;> rfl)

/-- Witness of C3 (amended): bag image `"AAEC"` (bytes 0, 1, 2), positional
image a `Uint8ClampedArray` with bytes 7, 8. -/
theorem genqart_setfile_order_witness :
    copyHalftone (.byteArray true [7, 8] 2 []) = some (copiedBytes [7, 8] 2) ∧
    copiedBytes [7, 8] 2 = [7, 8] ∧
    ∃ url m, jsString (.string "u") = some url ∧
      readOptions echoEngine url
        (.object (("halftoneBase64", .string "AAEC") :: fullFields)) = some m ∧
      engineCalls (genqart echoEngine (.string "u" ::
          .object (("halftoneBase64", .string "AAEC") :: fullFields) ::
          .byteArray true [7, 8] 2 [] :: [])).log =
        [.SetFile [0, 1, 2], .SetFile (copiedBytes [7, 8] 2),
         .Encode (echoEngine.setFile (echoEngine.setFile m [0, 1, 2])
           (copiedBytes [7, 8] 2))] :=
  have h := genqart_setfile_order echoEngine (.string "u")
    (.object (("halftoneBase64", .string "AAEC") :: fullFields)) (.string "AAEC")
    true [7, 8] [0, 1, 2] 2 [] [] "AAEC" rfl (by decide) rfl rfl rfl (by decide)
    (by decide)
  ⟨h.2.1, h.2.2.2.1 rfl, h.2.2.2.2⟩

/-- C4. Whenever a call invokes `Encode` (on a record `m`) and `Encode` returns
the error `err`, the value returned is the string "error: " followed by
`err.Error()`, not a map. -/
theorem genqart_engine_error (E : Engine σ) (args : List Value) (m : Image σ)
    (err : String) (hcall : Event.Encode m ∈ (genqart E args).log)
    (herr : E.Encode m = .error err) :
    (genqart E args).ret = some (.str ("error: " ++ err)) := by
  obtain ⟨-, pre, -, hrun⟩ := genqart_of_encode_mem E args m hcall
  rw [hrun]
  exact encodeAndPack_ret_error E pre m err herr

/-- Witness of C4: the all-zero bag, whose scale the example engine rejects. -/
theorem genqart_engine_error_witness :
    Event.Encode ⟨"u", 0, 0, 0, 0, false, false, false, false, 0, 0, none⟩ ∈
      (genqart echoEngine [.string "u", .object zeroFields]).log ∧
    echoEngine.Encode ⟨"u", 0, 0, 0, 0, false, false, false, false, 0, 0, none⟩
      = .error "invalid scale" ∧
    (genqart echoEngine [.string "u", .object zeroFields]).ret
      = some (.str ("error: " ++ "invalid scale")) :=
  ⟨by decide, rfl,
   genqart_engine_error echoEngine _
     ⟨"u", 0, 0, 0, 0, false, false, false, false, 0, 0, none⟩ "invalid scale"
     (by decide) rfl⟩

/-- C5, as stated, fails: an engine whose `Encode` returns no error and the
empty byte sequence makes `genqart` return the success structure with an empty
`base64EncodedImage`. -/
theorem genqart_success_empty_image :
    Event.Encode ⟨"u", 0, 0, 4, 0, false, false, false, false, 0, 0, ()⟩ ∈
      (genqart emptyEngine [.string "u", .object fullFields]).log ∧
    emptyEngine.Encode ⟨"u", 0, 0, 4, 0, false, false, false, false, 0, 0, ()⟩ = .ok [] ∧
    (genqart emptyEngine [.string "u", .object fullFields]).ret =
      some (.map [("base64EncodedImage", .text ""), ("success", .flag true)]) :=
  ⟨by decide, rfl, by decide⟩

/-- C5, amended. Whenever a call invokes `Encode` and `Encode` returns the
bytes `png` without error, the result is the structure with `success` true and
`base64EncodedImage` the base64 text of `png`; that text is empty exactly when
`png` is empty, so it is non-empty for every non-empty byte sequence. -/
theorem genqart_success_structure (E : Engine σ) (args : List Value) (m : Image σ)
    (png : List Byte) (hcall : Event.Encode m ∈ (genqart E args).log)
    (hok : E.Encode m = .ok png) :
    (genqart E args).ret =
      some (.map [("base64EncodedImage", .text (EncodeToString png)),
                  ("success", .flag true)]) ∧
    (EncodeToString png = "" ↔ png = []) := by
  obtain ⟨-, pre, -, hrun⟩ := genqart_of_encode_mem E args m hcall
  rw [hrun]
  exact ⟨encodeAndPack_ret_ok E pre m png hok, EncodeToString_eq_empty png⟩

/-- Witness of C5 (amended): the example call, for which the example engine
returns four bytes. -/
theorem genqart_success_structure_witness :
    (genqart echoEngine [.string "https://example.com", .object fullFields]).ret =
      some (.map [("base64EncodedImage", .text (EncodeToString [137, 80, 78, 71])),
                  ("success", .flag true)]) ∧
    (EncodeToString [137, 80, 78, 71] = "" ↔ ([137, 80, 78, 71] : List Byte) = []) :=
  genqart_success_structure echoEngine
    [.string "https://example.com", .object fullFields]
    ⟨"https://example.com", 0, 0, 4, 0, false, false, false, false, 0, 0, none⟩
    [137, 80, 78, 71] (by decide) rfl

/-- C6. Whenever a call invokes `Encode` and `Encode` returns the bytes `png`
without error, the field `base64EncodedImage` of the result is
`base64.StdEncoding.EncodeToString(png)`, and `DecodeString` applied to that
field succeeds and returns exactly `png`. -/
theorem genqart_image_round_trip (E : Engine σ) (args : List Value) (m : Image σ)
    (png : List Byte) (hcall : Event.Encode m ∈ (genqart E args).log)
    (hok : E.Encode m = .ok png) :
    ∃ b64, (genqart E args).ret =
        some (.map [("base64EncodedImage", .text b64), ("success", .flag true)]) ∧
      b64 = EncodeToString png ∧ DecodeString b64 = some png := by
  obtain ⟨-, pre, -, hrun⟩ := genqart_of_encode_mem E args m hcall
  rw [hrun]
  exact ⟨EncodeToString png, encodeAndPack_ret_ok E pre m png hok, rfl,
    DecodeString_EncodeToString png⟩

/-- Witness of C6: the positional image with bytes 7, 8 comes back from the
engine `echoEngine` and is returned as `"Bwg="`. -/
theorem genqart_image_round_trip_witness :
    ∃ b64, (genqart echoEngine
        [.string "u", .object fullFields, jsUint8Array [7, 8]]).ret =
        some (.map [("base64EncodedImage", .text b64), ("success", .flag true)]) ∧
      b64 = EncodeToString [7, 8] ∧ DecodeString b64 = some [7, 8] :=
  genqart_image_round_trip echoEngine
    [.string "u", .object fullFields, jsUint8Array [7, 8]]
    ⟨"u", 0, 0, 4, 0, false, false, false, false, 0, 0, some [7, 8]⟩
    [7, 8] (by decide) rfl

/-- C7, as stated, fails: on the empty bag `Get("version")` is `undefined`,
on which `Int()` panics, as `Bool()` does on the absent `rand`; the call with
that bag returns nothing. -/
theorem genqart_absent_field_panics :
    2 ≤ [Value.string "u", Value.object []].length ∧
    getInt (.object []) "version" = none ∧
    getBool (.object []) "rand" = none ∧
    genqart echoEngine [.string "u", .object []] = ⟨[], none⟩ := by
  decide

/-- C7, amended. For a call with at least two arguments, lines 28 to 42 (the
payload, then the ten option fields) complete exactly when the payload is not
a BigInt, on which `args[0].String()` panics, and the bag is an object that
holds a number under each of `version`, `mask`, `scale`, `rotation`,
`brightness`, `contrast` and a boolean under each of `rand`, `dither`,
`onlyDataBits`, `saveControl`. The coercions are partial: on an absent field,
`Get(name)` is `undefined` and `Int()` or `Bool()` panics; whenever the payload
is a BigInt or the bag is not so typed the call ends there, with no return
value, no console message and no engine call. -/
theorem readOptions_defined_iff_typed (E : Engine σ) (a0 opts : Value)
    (rest : List Value) :
    ((∃ url m, jsString a0 = some url ∧ readOptions E url opts = some m) ↔
      isBigInt a0 = false ∧ optionsTyped opts = true) ∧
    (isBigInt a0 = true ∨ optionsTyped opts = false →
      genqart E (a0 :: opts :: rest) = ⟨[], none⟩) ∧
    (∀ k ∈ intFields, jsGet opts k = some .undefined →
      getInt opts k = none ∧ optionsTyped opts = false) ∧
    (∀ k ∈ boolFields, jsGet opts k = some .undefined →
      getBool opts k = none ∧ optionsTyped opts = false) := by
  refine ⟨?_, ?_, ?_, ?_⟩
  · constructor
    · rintro ⟨url, m, hurl, hm⟩
      constructor
      · cases hb : isBigInt a0 with
        | false => rfl
        | true => rw [(jsString_eq_none a0).mpr hb] at hurl; cases hurl
      · rw [← readOptions_isSome E url opts, hm]
        rfl
    · rintro ⟨hb, ht⟩
      obtain ⟨url, hurl⟩ := jsString_of_not_bigint a0 hb
      have h1 := readOptions_isSome E url opts
      rw [ht] at h1
      obtain ⟨m, hm⟩ := Option.isSome_iff_exists.mp h1
      exact ⟨url, m, hurl, hm⟩
  · rintro (hb | ht)
    · exact genqart_bigint_payload E a0 opts rest hb
    · exact genqart_untyped E a0 opts rest ht
  · intro k hk hu
    refine ⟨by simp [getInt, hu, jsInt], ?_⟩
    cases ht : optionsTyped opts with
    | false => rfl
    | true =>
      simp only [optionsTyped, Bool.and_eq_true, List.all_eq_true] at ht
      have := ht.1 k hk
      simp [holdsNumber, hu] at this
  · intro k hk hu
    refine ⟨by simp [getBool, hu, jsBool], ?_⟩
    cases ht : optionsTyped opts with
    | false => rfl
    | true =>
      simp only [optionsTyped, Bool.and_eq_true, List.all_eq_true] at ht
      have := ht.2 k hk
      simp [holdsBoolean, hu] at this

/-- Witness of C7 (amended): the bag `{version:0, mask:0, scale:4, rotation:0}`,
in which `rand` is absent, and a BigInt payload with the full bag. -/
theorem readOptions_defined_iff_typed_witness :
    optionsTyped exampleOptions = false ∧
    genqart echoEngine [.string "https://example.com", exampleOptions] = ⟨[], none⟩ ∧
    getBool exampleOptions "rand" = none ∧
    genqart echoEngine [.bigint, .object fullFields] = ⟨[], none⟩ ∧
    (∃ url m, jsString (.string "u") = some url ∧
      readOptions echoEngine url (.object fullFields) = some m) :=
  ⟨by decide,
   (readOptions_defined_iff_typed echoEngine (.string "https://example.com")
      exampleOptions []).2.1 (Or.inr (by decide)),
   ((readOptions_defined_iff_typed echoEngine (.string "https://example.com")
      exampleOptions []).2.2.2 "rand" (by decide) rfl).1,
   (readOptions_defined_iff_typed echoEngine .bigint (.object fullFields) []).2.1
      (Or.inl rfl),
   (readOptions_defined_iff_typed echoEngine (.string "u") (.object fullFields) []).1.mpr
      ⟨rfl, by decide⟩⟩

/-- C8, as stated, fails: the call `generateQart("u", undefined)` has two
arguments and returns neither a structure nor a string; it panics at
`opts.Get("version")` with nothing logged. -/
theorem genqart_no_result_undefined_bag :
    2 ≤ [Value.string "u", Value.undefined].length ∧
    (genqart echoEngine [.string "u", .undefined]).ret = none ∧
    (genqart echoEngine [.string "u", .undefined]).log = [] := by
  decide

/-- C8, amended. A call panics, returning nothing, exactly when it has at
least two arguments and one of these holds: the payload is a BigInt; the bag
is not typed (a number under each integer option field, a boolean under each
boolean one); the bag's `halftoneBase64` is a BigInt; or, `halftoneBase64`
being falsy or decodable, a third argument is supplied that is neither a
`Uint8Array` nor a `Uint8ClampedArray`, or is one whose `length` reads
negative. Every other call returns either a string or the structure with
exactly the two fields `base64EncodedImage` (text) and `success` (true). The
result is a structure if and only if there are at least two arguments, the
payload is not a BigInt, the bag is typed, `halftoneBase64` is falsy or
accepted by the base64 decoder, the third argument, if any, is a `Uint8Array`
or `Uint8ClampedArray` whose `length` is not negative, and `Encode` was
invoked and returned no error. -/
theorem genqart_result_shape (E : Engine σ) (args : List Value) :
    ((genqart E args).ret = none ↔ aborts args = true) ∧
    (aborts args = false →
      (∃ s, (genqart E args).ret = some (.str s)) ∨
      (∃ b64, (genqart E args).ret =
        some (.map [("base64EncodedImage", .text b64), ("success", .flag true)]))) ∧
    ((∃ entries, (genqart E args).ret = some (.map entries)) ↔
      reachesEngine args = true ∧
        ∃ m png, Event.Encode m ∈ (genqart E args).log ∧ E.Encode m = .ok png) := by
  obtain ⟨h1, h2, h3⟩ := genqart_ret_cases E args
  refine ⟨⟨fun hnone => ?_, h1⟩, h2, h3⟩
  cases ha : aborts args with
  | true => rfl
  | false =>
    rcases h2 ha with ⟨s, hs⟩ | ⟨b64, hb⟩
    · rw [hs] at hnone; cases hnone
    · rw [hb] at hnone; cases hnone

/-- Witness of C8 (amended): the full example bag gives the structure; the bag
without the boolean fields, a BigInt payload and a BigInt `halftoneBase64`
give no result. -/
theorem genqart_result_shape_witness :
    (genqart echoEngine [.string "https://example.com", exampleOptions]).ret = none ∧
    (genqart echoEngine [.bigint, .object fullFields]).ret = none ∧
    (genqart echoEngine [.string "u",
      .object (("halftoneBase64", .bigint) :: fullFields)]).ret = none ∧
    ((∃ s, (genqart echoEngine [.string "https://example.com", .object fullFields]).ret
        = some (.str s)) ∨
     (∃ b64, (genqart echoEngine [.string "https://example.com", .object fullFields]).ret
        = some (.map [("base64EncodedImage", .text b64), ("success", .flag true)]))) :=
  ⟨(genqart_result_shape echoEngine
      [.string "https://example.com", exampleOptions]).1.mpr (by decide),
   (genqart_result_shape echoEngine [.bigint, .object fullFields]).1.mpr (by decide),
   (genqart_result_shape echoEngine [.string "u",
      .object (("halftoneBase64", .bigint) :: fullFields)]).1.mpr (by decide),
   (genqart_result_shape echoEngine
      [.string "https://example.com", .object fullFields]).2.1 (by decide)⟩

/-- C9, as stated, fails on its own example: for the payload
"https://example.com" and the bag `{version:0, mask:0, scale:4, rotation:0}`,
the fields `version`, `mask`, `scale`, `rotation` are read, then
`opts.Get("rand").Bool()` panics on `undefined`; the engine is not invoked. -/
theorem genqart_example_not_invoked :
    2 ≤ [Value.string "https://example.com", exampleOptions].length ∧
    getInt exampleOptions "scale" = some 4 ∧
    jsGet exampleOptions "rand" = some .undefined ∧
    genqart echoEngine [.string "https://example.com", exampleOptions] = ⟨[], none⟩ ∧
    encodeCount (genqart echoEngine [.string "https://example.com", exampleOptions]).log
      = 0 :=
  ⟨by decide, by decide, rfl, by decide, by decide⟩

/-- C9, amended. For a call with at least two arguments and a string payload:
if the call reaches the engine then `Encode` is invoked, and the record on
which it is invoked has `URL` equal to the payload verbatim and each of
`Version`, `Mask`, `Scale`, `Rotation`, `Rand`, `Dither`, `OnlyDataBits`,
`SaveControl`, `Brightness`, `Contrast` equal to the `Int()` or `Bool()` reading
of the value under the same-named bag key (`rand` for `Rand`). In particular,
for the payload "https://example.com" and the bag `{version:0, mask:0,
scale:4, rotation:0, rand:false, dither:false, onlyDataBits:false,
saveControl:false, brightness:0, contrast:0}` with no reference image, the
only engine call is `Encode`, on the all-zero record with `Scale` 4. -/
theorem genqart_record_wiring (E : Engine σ) (payload : String) (opts : Value)
    (rest : List Value) :
    (reachesEngine (.string payload :: opts :: rest) = true →
      ∃ m, Event.Encode m ∈ (genqart E (.string payload :: opts :: rest)).log) ∧
    (∀ m, Event.Encode m ∈ (genqart E (.string payload :: opts :: rest)).log →
      m.URL = payload ∧
      getInt opts "version" = some m.Version ∧ getInt opts "mask" = some m.Mask ∧
      getInt opts "scale" = some m.Scale ∧ getInt opts "rotation" = some m.Rotation ∧
      getBool opts "rand" = some m.Rand ∧ getBool opts "dither" = some m.Dither ∧
      getBool opts "onlyDataBits" = some m.OnlyDataBits ∧
      getBool opts "saveControl" = some m.SaveControl ∧
      getInt opts "brightness" = some m.Brightness ∧
      getInt opts "contrast" = some m.Contrast) ∧
    engineCalls (genqart E [.string "https://example.com", .object fullFields]).log =
      [.Encode ⟨"https://example.com", 0, 0, 4, 0, false, false, false, false, 0, 0,
        E.zero⟩] := by
  refine ⟨?_, ?_, ?_⟩
  · intro hr
    rcases genqart_shape E (.string payload :: opts :: rest) with
      ⟨-, -, pre, m0, -, hrun⟩ | ⟨hr2, -⟩ | ⟨hr2, -⟩
    · obtain ⟨post, hl, -⟩ := encodeAndPack_log E pre m0
      exact ⟨m0, by rw [hrun, hl]; simp⟩
    · rw [hr] at hr2; cases hr2
    · rw [hr] at hr2; cases hr2
  · intro m hm
    obtain ⟨url, m0, hurl, hm0, hc⟩ := genqart_encode_config E _ opts rest m hm
    cases hurl
    obtain ⟨h0, h1, h2, h3, h4, h5, h6, h7, h8, h9, h10, -⟩ :=
      readOptions_fields E _ opts m0 hm0
    have e0 : m.URL = m0.URL :=
      (congrArg Image.URL hc : (Image.config m).URL = (Image.config m0).URL)
    have e1 : m.Version = m0.Version :=
      (congrArg Image.Version hc : (Image.config m).Version = (Image.config m0).Version)
    have e2 : m.Mask = m0.Mask :=
      (congrArg Image.Mask hc : (Image.config m).Mask = (Image.config m0).Mask)
    have e3 : m.Scale = m0.Scale :=
      (congrArg Image.Scale hc : (Image.config m).Scale = (Image.config m0).Scale)
    have e4 : m.Rotation = m0.Rotation :=
      (congrArg Image.Rotation hc : (Image.config m).Rotation = (Image.config m0).Rotation)
    have e5 : m.Rand = m0.Rand :=
      (congrArg Image.Rand hc : (Image.config m).Rand = (Image.config m0).Rand)
    have e6 : m.Dither = m0.Dither :=
      (congrArg Image.Dither hc : (Image.config m).Dither = (Image.config m0).Dither)
    have e7 : m.OnlyDataBits = m0.OnlyDataBits :=
      (congrArg Image.OnlyDataBits hc : (Image.config m).OnlyDataBits = (Image.config m0).OnlyDataBits)
    have e8 : m.SaveControl = m0.SaveControl :=
      (congrArg Image.SaveControl hc : (Image.config m).SaveControl = (Image.config m0).SaveControl)
    have e9 : m.Brightness = m0.Brightness :=
      (congrArg Image.Brightness hc : (Image.config m).Brightness = (Image.config m0).Brightness)
    have e10 : m.Contrast = m0.Contrast :=
      (congrArg Image.Contrast hc : (Image.config m).Contrast = (Image.config m0).Contrast)
    rw [e0, e1, e2, e3, e4, e5, e6, e7, e8, e9, e10]
    exact ⟨h0, h1, h2, h3, h4, h5, h6, h7, h8, h9, h10⟩
  · have hrun : genqart E [.string "https://example.com", .object fullFields] =
        encodeAndPack E []
          ⟨"https://example.com", 0, 0, 4, 0, false, false, false, false, 0, 0, E.zero⟩ :=
      rfl
    rw [hrun, encodeAndPack_engineCalls E [] _ (by simp)]
    rfl

/-- Witness of C9 (amended): the example call with the full bag. -/
theorem genqart_record_wiring_witness :
    (∃ m, Event.Encode m ∈
      (genqart echoEngine [.string "https://example.com", .object fullFields]).log) ∧
    engineCalls (genqart echoEngine
        [.string "https://example.com", .object fullFields]).log =
      [.Encode ⟨"https://example.com", 0, 0, 4, 0, false, false, false, false, 0, 0,
        echoEngine.zero⟩] :=
  ⟨(genqart_record_wiring echoEngine "https://example.com" (.object fullFields) []).1
      (by decide),
   (genqart_record_wiring echoEngine "https://example.com" (.object fullFields) []).2.2⟩

/-- C10, as stated, fails: the call with the payload "https://example.com"
and the bag `{version:0, mask:0, scale:4, rotation:0}` has two arguments and a
falsy `halftoneBase64`, yet `Encode` is invoked zero times. -/
theorem genqart_validated_not_encoded :
    2 ≤ [Value.string "https://example.com", exampleOptions].length ∧
    halftoneAccepted exampleOptions = true ∧
    (jsGet exampleOptions "halftoneBase64").bind jsTruthy = some false ∧
    encodeCount (genqart echoEngine [.string "https://example.com", exampleOptions]).log
      = 0 := by
  decide

/-- C10, amended. In every call `Encode` is invoked exactly once when there
are at least two arguments, the payload is not a BigInt, the bag is typed (a
number under each integer option field, a boolean under each boolean one),
`halftoneBase64` is not a BigInt and is falsy or accepted by the base64
decoder, and the third argument, if any, is a `Uint8Array` or
`Uint8ClampedArray` whose `length` is not negative; it is invoked zero times
otherwise, so never more than once; and no `SetFile` call comes after an
invocation of `Encode`. -/
theorem genqart_encode_once (E : Engine σ) (args : List Value) :
    encodeCount (genqart E args).log = (if reachesEngine args = true then 1 else 0) ∧
    (genqart E args).log.Pairwise
      (fun earlier later => Event.isEncode earlier = true → Event.isSetFile later = false) := by
  rcases genqart_shape E args with ⟨hr, -, pre, m0, hpre, hrun⟩ | ⟨hr, -, -, hlog⟩ |
    ⟨hr, -, s, msg, hrun⟩
  · rw [hrun, hr]
    exact ⟨encodeAndPack_count E pre m0 hpre, encodeAndPack_order E pre m0 hpre⟩
  · have hno : ∀ e ∈ (genqart E args).log, Event.isEncode e = false :=
      fun e he => not_isEncode_of_isSetFile e (hlog e he)
    refine ⟨?_, pairwise_of_no_encode _ hno⟩
    rw [hr]
    exact List.countP_eq_zero.mpr (fun e he => by simp [hno e he])
  · rw [hrun, hr]
    exact ⟨rfl, by simp⟩

/-- Witness of C10 (amended): one invocation for the full example bag with a
bag image and a positional image, none for an undecodable bag image, none for
a BigInt payload. -/
theorem genqart_encode_once_witness :
    encodeCount (genqart echoEngine [.string "u",
      .object (("halftoneBase64", .string "AAEC") :: fullFields),
      jsUint8Array [7, 8]]).log = 1 ∧
    encodeCount (genqart echoEngine [.string "u",
      .object (("halftoneBase64", .string "AAE") :: fullFields)]).log = 0 ∧
    encodeCount (genqart echoEngine [.bigint, .object fullFields]).log = 0 :=
  ⟨(genqart_encode_once echoEngine [.string "u",
      .object (("halftoneBase64", .string "AAEC") :: fullFields),
      jsUint8Array [7, 8]]).1.trans (by decide),
   (genqart_encode_once echoEngine [.string "u",
      .object (("halftoneBase64", .string "AAE") :: fullFields)]).1.trans (by decide),
   (genqart_encode_once echoEngine [.bigint, .object fullFields]).1.trans (by decide)⟩

end QArt
